import Mathlib

/-
Verification of the multi-tenant REST service (restService.go).

The embedding models Go strings as lists of characters, the Postgres
backend as a state of schemas, tables and rows, and the two raw SQL
statements issued by `prepare` through a small interpreter that splits a
statement string on semicolons, as the simple-query protocol does, and
recognises exactly the two statement shapes the service emits.  The jwt
library is an external collaborator and is modelled as an abstract
verification oracle passed to `authorize`.
-/

namespace RestService

/-- Go strings, embedded as lists of characters. -/
abbrev GoStr := List Char

/-- Literal Go string. -/
def gs (s : String) : GoStr := s.toList

/-- Struct `Person` from restService.go: `ID int; Name string`.  The Go `int` is
64-bit; `strconv.Atoi` below carries the explicit range check. -/
structure Person where
  ID : Int
  Name : GoStr
deriving DecidableEq, Repr

/-- Struct `ServiceClaims` from restService.go: the jwt claims payload. -/
structure ServiceClaims where
  UserName : GoStr
  Tenant : GoStr
deriving DecidableEq, Repr

/-- State of the shared Postgres backend: which schemas exist, which
schemas contain the `people` table, and the rows, each tagged with the
schema that owns it. -/
structure PGState where
  schemas : Finset GoStr
  tables : Finset GoStr
  rows : List (GoStr × Person)
deriving DecidableEq

/-- Trace entry for a gorm data operation performed by a handler. -/
inductive DbOp where
  | create (p : Person)
  | save (p : Person)
  | delete (p : Person)
  | whereFind (n : Int)
  | findAll
deriving DecidableEq, Repr

/-- One open transaction: the uncommitted view of the backend, the
current `search_path`, whether a failed statement has aborted the
transaction (Postgres rejects further statements and turns COMMIT into
ROLLBACK), and the trace of data operations issued so far. -/
structure TxState where
  pg : PGState
  path : GoStr
  aborted : Bool
  ops : List DbOp
deriving DecidableEq

/-- Errors returned by the Go handlers; the only error value the five
units ever return is the `strconv.Atoi` failure on the path id. -/
inductive GoErr where
  | atoiErr (s : GoStr)
deriving DecidableEq, Repr

/-- Response bodies the service can write. -/
inductive RespBody where
  | empty
  | people (l : List Person)
  | person (p : Person)
  | text (s : GoStr)
deriving DecidableEq, Repr

/-- The rendered HTTP response of one request.  A Go handler that
returns without writing produces status 200 with an empty body. -/
structure HttpResponse where
  status : Nat
  body : RespBody
deriving DecidableEq, Repr

/-- The parts of the incoming request the service reads: the
`Authorization` header, the `{id}` route variable (empty when absent, as
with Go map lookup), and the result of decoding the JSON body into a
zero-valued `Person` (decode errors are ignored by the source). -/
structure Request where
  authHeader : GoStr
  idVar : GoStr
  bodyPerson : Person
deriving DecidableEq, Repr

/-! Authorization header validation -/

/-- First-occurrence split: `breakSp h = some (a, b)` when `h = a ++ ' ' :: b`
with no space in `a`; `none` when `h` has no space.  This is the content of
Go `strings.SplitN(h, " ", 2)` returning two parts versus one. -/
def breakSp : GoStr → Option (GoStr × GoStr)
  | [] => none
  | c :: cs =>
    if c == ' ' then some ([], cs)
    else match breakSp cs with
      | some (a, b) => some (c :: a, b)
      | none => none

/-- Function `isValidAuthorizationHeader` from restService.go: the header must be
nonempty and `SplitN(h, " ", 2)` must give exactly `Bearer` followed by a
nonempty token. -/
def isValidAuthorizationHeader (authorizationHeader : GoStr) : Bool :=
  if authorizationHeader == [] then false
  else match breakSp authorizationHeader with
    | some (scheme, token) => scheme == gs "Bearer" && !(token == [])
    | none => false

/-- Go `strings.SplitN(h, " ", 2)[1]`: the token part of a valid header. -/
def authTokenOf (h : GoStr) : GoStr :=
  match breakSp h with
  | some x => x.2
  | none => []

/-! The SQL statements issued by `prepare` -/

/-- Head of the first statement issued by `prepare`. -/
def createHead : GoStr := gs "create schema if not exists "

/-- Head of the second statement issued by `prepare`. -/
def setPathHead : GoStr := gs "set search_path to "

/-- The string `"create schema if not exists " + tenant` from restService.go. -/
def createSchemaSQL (tenant : GoStr) : GoStr := createHead ++ tenant

/-- The string `"set search_path to " + tenant` from restService.go. -/
def setPathSQL (tenant : GoStr) : GoStr := setPathHead ++ tenant

/-- A parsed SQL statement: the two shapes the service emits, the empty
statement, and everything else, which the backend rejects with an error. -/
inductive Stmt where
  | createSchema (n : GoStr)
  | setPath (n : GoStr)
  | skip
  | err
deriving DecidableEq, Repr

/-- Characters allowed inside an unquoted identifier. -/
def isIdentChar (c : Char) : Bool := c.isAlphanum || c == '_'

/-- A bare unquoted identifier as the backend lexer accepts it:
nonempty, starting with a letter or an underscore, containing only
alphanumerics and underscores.  Mixed case and any length are accepted
here; the lexer then normalises the name, see `pgFoldIdent`. -/
def isIdent (s : GoStr) : Bool :=
  match s with
  | [] => false
  | c :: cs => (c.isAlpha || c == '_') && cs.all isIdentChar

/-- Folding of one character of an unquoted identifier by the backend
lexer: ASCII uppercase letters become lowercase. -/
def pgFoldChar (c : Char) : Char :=
  if c.isUpper then Char.ofNat (c.toNat + 32) else c

/-- Normalisation the backend applies to every unquoted identifier:
fold to lowercase and truncate to the 63-byte name length limit, so
distinct spellings can denote one schema. -/
def pgFoldIdent (s : GoStr) : GoStr := (s.map pgFoldChar).take 63

/-- The strict allow-list of the specification for tenant identifiers:
a bare identifier, already lowercase and within the 63-byte name limit,
so the backend stores it verbatim and distinct tenants get distinct
schemas. -/
def isSafeTenant (s : GoStr) : Bool :=
  isIdent s && s.all (fun c => !c.isUpper) && decide (s.length ≤ 63)

/-- Whether `s` starts with the pattern `p`. -/
def strStarts : GoStr → GoStr → Bool
  | _, [] => true
  | [], _ :: _ => false
  | c :: cs, d :: ds => c == d && strStarts cs ds

/-- Split a query string on semicolons, as the simple-query protocol
does before executing each statement in turn. -/
def splitSemi : GoStr → List GoStr
  | [] => [[]]
  | c :: cs =>
    if c == ';' then [] :: splitSemi cs
    else match splitSemi cs with
      | [] => [[c]]
      | r :: rs => (c :: r) :: rs

/-- Parse one statement: leading spaces are stripped; the two recognised
shapes must carry a safe identifier, anything else is a backend error. -/
def parseStmt (s0 : GoStr) : Stmt :=
  let s := s0.dropWhile (fun c => c == ' ')
  if s == [] then .skip
  else if strStarts s createHead then
    let n := s.drop createHead.length
    if isIdent n then .createSchema (pgFoldIdent n) else .err
  else if strStarts s setPathHead then
    let n := s.drop setPathHead.length
    if isIdent n then .setPath (pgFoldIdent n) else .err
  else .err

/-- Parse a whole query string into its statements. -/
def parseSQL (sql : GoStr) : List Stmt := (splitSemi sql).map parseStmt

/-- Execute one parsed statement.  A statement inside an aborted
transaction is rejected and changes nothing; a bad statement aborts the
transaction. -/
def runStmt (tx : TxState) (s : Stmt) : TxState :=
  if tx.aborted then tx
  else
    match s with
    | .skip => tx
    | .createSchema n => { tx with pg := { tx.pg with schemas := insert n tx.pg.schemas } }
    | .setPath n => { tx with path := n }
    | .err => { tx with aborted := true }

/-- Run a list of parsed statements in order. -/
def runStmts (L : List Stmt) (tx : TxState) : TxState := L.foldl runStmt tx

/-- Model of `db.Exec(sql)`: the backend splits, parses and runs the statements;
the Go code discards the returned error. -/
def dbExec (sql : GoStr) (tx : TxState) : TxState := runStmts (parseSQL sql) tx

/-- Default `search_path` of a fresh connection. -/
def defaultSearchPath : GoStr := gs "public"

/-- Model of `dbPool.Begin()`: a fresh transaction seeing the committed state. -/
def txBegin (db : PGState) : TxState :=
  { pg := db, path := defaultSearchPath, aborted := false, ops := [] }

/-- Model of `db.AutoMigrate(&Person\x7b\x7d)`: create the `people` table in the schema
named by the current search path; fails, aborting the transaction, when
that schema does not exist; a no-op on an already aborted transaction. -/
def autoMigrate (tx : TxState) : TxState :=
  if tx.aborted then tx
  else if tx.path ∈ tx.pg.schemas then
    { tx with pg := { tx.pg with tables := insert tx.path tx.pg.tables } }
  else { tx with aborted := true }

/-! gorm data operations used by the five handlers -/

/-- The rows of the `people` table of schema `s`, in insertion order. -/
def rowsOf (s : GoStr) (rows : List (GoStr × Person)) : List Person :=
  (rows.filter (fun r => r.1 == s)).map (fun r => r.2)

/-- Model of `db.Find(&people)`: all rows of the current schema.  A missing table
is a backend error: the transaction aborts and the destination slice is
left empty. -/
def dbFind (tx0 : TxState) : List Person × TxState :=
  let tx := { tx0 with ops := tx0.ops ++ [DbOp.findAll] }
  if tx.aborted then ([], tx)
  else if tx.path ∈ tx.pg.tables then (rowsOf tx.path tx.pg.rows, tx)
  else ([], { tx with aborted := true })

/-- Model of `db.Where("id = ?", n).Find(&person)`: the first row of the current
schema with the given id, if any; a zero result count is not a backend
error, a missing table is. -/
def dbWhereFind (n : Int) (tx0 : TxState) : Option Person × TxState :=
  let tx := { tx0 with ops := tx0.ops ++ [DbOp.whereFind n] }
  if tx.aborted then (none, tx)
  else if tx.path ∈ tx.pg.tables then
    (((rowsOf tx.path tx.pg.rows).filter (fun p => p.ID == n)).head?, tx)
  else (none, { tx with aborted := true })

/-- Model of `db.Create(&person)`: insert a row into the current schema; a missing
table or a duplicate primary key is a backend error aborting the
transaction. -/
def dbCreate (p : Person) (tx0 : TxState) : TxState :=
  let tx := { tx0 with ops := tx0.ops ++ [DbOp.create p] }
  if tx.aborted then tx
  else if tx.path ∈ tx.pg.tables
      && !((rowsOf tx.path tx.pg.rows).any (fun q => q.ID == p.ID)) then
    { tx with pg := { tx.pg with rows := tx.pg.rows ++ [(tx.path, p)] } }
  else { tx with aborted := true }

/-- Model of `db.Save(&person)`: with a nonzero primary key, update in place the
rows of the current schema with that id; with a zero key gorm inserts
instead.  A missing table is a backend error. -/
def dbSave (p : Person) (tx0 : TxState) : TxState :=
  let tx := { tx0 with ops := tx0.ops ++ [DbOp.save p] }
  if tx.aborted then tx
  else if tx.path ∈ tx.pg.tables then
    if p.ID == 0 then
      if (rowsOf tx.path tx.pg.rows).any (fun q => q.ID == p.ID) then
        { tx with aborted := true }
      else { tx with pg := { tx.pg with rows := tx.pg.rows ++ [(tx.path, p)] } }
    else
      let rows2 := tx.pg.rows.map (fun r => if r.1 == tx.path && r.2.ID == p.ID then (r.1, p) else r)
      { tx with pg := { tx.pg with rows := rows2 } }
  else { tx with aborted := true }

/-- Model of `db.Delete(&person)`: delete the rows of the current schema whose id
is the primary key of the argument; a missing table is a backend error. -/
def dbDelete (p : Person) (tx0 : TxState) : TxState :=
  let tx := { tx0 with ops := tx0.ops ++ [DbOp.delete p] }
  if tx.aborted then tx
  else if tx.path ∈ tx.pg.tables then
    let rows2 := tx.pg.rows.filter (fun r => !(r.1 == tx.path && r.2.ID == p.ID))
    { tx with pg := { tx.pg with rows := rows2 } }
  else { tx with aborted := true }

/-! strconv.Atoi -/

/-- Value of a nonempty all-digit string. -/
def readDigits (s : GoStr) : Option Nat :=
  if s == [] then none
  else if s.all (fun c => c.isDigit) then
    some (s.foldl (fun a c => a * 10 + (c.toNat - 48)) 0)
  else none

/-- Model of `strconv.Atoi`: optional sign, decimal digits, 64-bit range check. -/
def goAtoi (s : GoStr) : Option Int :=
  match s with
  | '+' :: rest =>
    (readDigits rest).bind (fun n =>
      if n ≤ 9223372036854775807 then some (Int.ofNat n) else none)
  | '-' :: rest =>
    (readDigits rest).bind (fun n =>
      if n ≤ 9223372036854775808 then some (-(Int.ofNat n)) else none)
  | _ =>
    (readDigits s).bind (fun n =>
      if n ≤ 9223372036854775807 then some (Int.ofNat n) else none)

/-! The five business-logic units -/

/-- The Go `handler` signature: a unit receives the request and the
scoped transaction and returns the new transaction state, the response
it wrote, and its error value.  JSON encoding of the listed values to
the response writer cannot fail and is modelled as always succeeding. -/
abbrev Handler := Request → TxState → TxState × HttpResponse × Option GoErr

/-- Handler `ListPeople` from restService.go. -/
def ListPeople : Handler := fun _ tx =>
  let res := dbFind tx
  (res.2, { status := 200, body := .people res.1 }, none)

/-- Handler `GetPerson` from restService.go: on an unparsable id the handler
returns the error having written nothing. -/
def GetPerson : Handler := fun r tx =>
  match goAtoi r.idVar with
  | none => (tx, { status := 200, body := .empty }, some (.atoiErr r.idVar))
  | some n =>
    let res := dbWhereFind n tx
    (res.2, { status := 200, body := .person (res.1.getD { ID := 0, Name := [] }) }, none)

/-- Handler `CreatePerson` from restService.go: the decoded body has its id
overwritten by the parsed path id before the insert. -/
def CreatePerson : Handler := fun r tx =>
  let person := r.bodyPerson
  match goAtoi r.idVar with
  | none => (tx, { status := 200, body := .empty }, some (.atoiErr r.idVar))
  | some n =>
    let tx1 := dbCreate { person with ID := n } tx
    let res := dbFind tx1
    (res.2, { status := 200, body := .people res.1 }, none)

/-- Handler `DeletePerson` from restService.go: no body decode; the zero person
gets the parsed path id. -/
def DeletePerson : Handler := fun r tx =>
  match goAtoi r.idVar with
  | none => (tx, { status := 200, body := .empty }, some (.atoiErr r.idVar))
  | some n =>
    let tx1 := dbDelete { ID := n, Name := [] } tx
    let res := dbFind tx1
    (res.2, { status := 200, body := .people res.1 }, none)

/-- Handler `UpdatePerson` from restService.go. -/
def UpdatePerson : Handler := fun r tx =>
  let person := r.bodyPerson
  match goAtoi r.idVar with
  | none => (tx, { status := 200, body := .empty }, some (.atoiErr r.idVar))
  | some n =>
    let tx1 := dbSave { person with ID := n } tx
    let res := dbFind tx1
    (res.2, { status := 200, body := .people res.1 }, none)

/-- The five units registered on the router in `main`. -/
inductive Unit5 where
  | list | get | create | update | delete
deriving DecidableEq, Repr

/-- The handler registered for each route. -/
def unitOf : Unit5 → Handler
  | .list => ListPeople
  | .get => GetPerson
  | .create => CreatePerson
  | .update => UpdatePerson
  | .delete => DeletePerson

/-! prepare and authorize -/

/-- Observable outcome of one dispatched request: the committed backend
state, the response sent, how many times the code called `Begin`,
`Commit` and `Rollback`, the raw SQL strings it issued through `Exec`,
and the trace of data operations of the unit. -/
structure ReqOutcome where
  db : PGState
  resp : HttpResponse
  begins : Nat
  commits : Nat
  rollbacks : Nat
  sql : List GoStr
  ops : List DbOp
deriving DecidableEq

/-- The three provisioning steps of `prepare`: create the schema if
absent, switch the search path, auto-migrate, all on the open
transaction, all returned errors discarded. -/
def provision (tenant : GoStr) (tx : TxState) : TxState :=
  autoMigrate (dbExec (setPathSQL tenant) (dbExec (createSchemaSQL tenant) tx))

/-- Method `handler.prepare` from restService.go: begin, provision, run the
unit, then commit exactly when the unit returned nil and roll back
otherwise.  `Commit` on a transaction the backend has aborted persists
nothing.  `prepare` itself writes nothing to the response. -/
def prepare (serviceHandler : Handler) (r : Request) (tenant : GoStr) (db : PGState) :
    ReqOutcome :=
  let tx := provision tenant (txBegin db)
  let res := serviceHandler r tx
  match res.2.2 with
  | none =>
    { db := if res.1.aborted then db else res.1.pg
      resp := res.2.1
      begins := 1, commits := 1, rollbacks := 0
      sql := [createSchemaSQL tenant, setPathSQL tenant]
      ops := res.1.ops }
  | some _ =>
    { db := db
      resp := res.2.1
      begins := 1, commits := 0, rollbacks := 1
      sql := [createSchemaSQL tenant, setPathSQL tenant]
      ops := res.1.ops }

/-- Result of `jwt.ParseWithClaims`, the external verifier: a parse or
signature failure with its message, or decoded claims together with the
validity flag the library computed. -/
inductive VerifyResult where
  | parseErr (msg : GoStr)
  | parsed (claims : ServiceClaims) (valid : Bool)

/-- Model of `http.Error(w, msg, 401)` as an outcome: nothing touched the pool. -/
def err401 (msg : GoStr) (db : PGState) : ReqOutcome :=
  { db := db
    resp := { status := 401, body := .text msg }
    begins := 0, commits := 0, rollbacks := 0
    sql := [], ops := [] }

/-- Method `handler.authorize` from restService.go, parametric in the jwt
verification oracle.  Note that the tenant claim is passed to `prepare`
unexamined. -/
def authorize (verify : GoStr → VerifyResult) (serviceHandler : Handler)
    (r : Request) (db : PGState) : ReqOutcome :=
  let authorizationHeader := r.authHeader
  if isValidAuthorizationHeader authorizationHeader then
    match verify (authTokenOf authorizationHeader) with
    | .parseErr m => err401 (gs "Token is not valid: " ++ m) db
    | .parsed claims valid =>
      if valid then prepare serviceHandler r claims.Tenant db
      else err401 (gs "Token is not valid or is expired") db
  else err401 (gs "Invalid authorization header: " ++ authorizationHeader) db

/-! Derived notions used by the statements and proofs -/

/-- Schema names created by a statement list. -/
def createsOf : List Stmt → Finset GoStr
  | [] => ∅
  | .createSchema n :: L => insert n (createsOf L)
  | _ :: L => createsOf L

/-- Search path assignment of one statement, if any. -/
def stmtPath : Stmt → Option GoStr
  | .setPath n => some n
  | _ => none

/-- The last search path set by a statement list, if any. -/
def lastPathOf : List Stmt → Option GoStr
  | [] => none
  | s :: L =>
    match lastPathOf L with
    | some m => some m
    | none => stmtPath s

/-- Whether a statement list contains a failing statement. -/
def hasErr (L : List Stmt) : Bool := L.any (fun s => s == Stmt.err)

/-- The tenant-visible slice of the backend: whether the schema of
tenant `t` exists, whether its table exists, and its rows. -/
def sliceOf (t : GoStr) (db : PGState) : Bool × Bool × List Person :=
  (decide (t ∈ db.schemas), decide (t ∈ db.tables), rowsOf t db.rows)

/-- Two open transactions agree on tenant `t`: same search path `t`,
same abort flag, and the same `t`-slice of their views. -/
def txRel (t : GoStr) (tx tx' : TxState) : Prop :=
  tx.path = t ∧ tx'.path = t ∧ tx.aborted = tx'.aborted ∧
  sliceOf t tx.pg = sliceOf t tx'.pg

/-! Concrete fixtures for witnesses and counterexamples -/

/-- A fresh backend holding only the default `public` schema. -/
def fxDb0 : PGState := { schemas := {gs "public"}, tables := ∅, rows := [] }

/-- A POST request on `/person/5` whose JSON body carries a decoy id. -/
def fxReqCreate : Request :=
  { authHeader := gs "Bearer tok", idVar := gs "5", bodyPerson := { ID := 99, Name := gs "Ada" } }

/-- A GET request on `/people`. -/
def fxReqList : Request :=
  { authHeader := gs "Bearer tok", idVar := [], bodyPerson := { ID := 0, Name := [] } }

/-- A GET request on `/person/abc`: the id does not parse. -/
def fxReqBadId : Request :=
  { authHeader := gs "Bearer tok", idVar := gs "abc", bodyPerson := { ID := 0, Name := [] } }

/-- A request with a malformed `Authorization` header. -/
def fxReqBasic : Request :=
  { authHeader := gs "Basic abc", idVar := [], bodyPerson := { ID := 0, Name := [] } }

/-- A verification oracle accepting every token with an empty tenant
claim, standing for a correctly signed token whose payload lacks the
`tenant` field. -/
def fxVerifyEmptyTenant : GoStr → VerifyResult :=
  fun _ => .parsed { UserName := gs "u", Tenant := [] } true

/-- A business-logic unit that first mutates data inside the
transaction and then fails. -/
def fxMutatingFailingUnit : Handler := fun _ tx =>
  (dbCreate { ID := 1, Name := gs "x" } tx, { status := 200, body := .empty }, some (.atoiErr []))

/-- A tenant identifier carrying a structural injection. -/
def fxInjTenant : GoStr := gs "public; set search_path to t1"

/-- A tenant identifier that is not on the allow-list. -/
def fxDropTenant : GoStr := gs "acme; drop schema public"

/-- First request of the isolation counterexample: create person 5
under tenant `t1`. -/
def fxIsoStep1 : ReqOutcome := prepare CreatePerson fxReqCreate (gs "t1") fxDb0

/-- Second request of the isolation counterexample: list people under
the injected tenant. -/
def fxIsoStep2 : ReqOutcome := prepare ListPeople fxReqList fxInjTenant fxIsoStep1.db

/-! Theorems -/

/-- Claim C6: for every invocation of the transaction scope, exactly one
of commit and rollback executes, commit exactly when the business-logic
unit returned no error and rollback exactly when it returned an error;
the decision depends only on the returned error value. -/
theorem prepare_commit_rule (serviceHandler : Handler) (r : Request)
    (tenant : GoStr) (db : PGState) :
    (prepare serviceHandler r tenant db).commits
        + (prepare serviceHandler r tenant db).rollbacks = 1 ∧
    (prepare serviceHandler r tenant db).commits
        = (if (serviceHandler r (provision tenant (txBegin db))).2.2 = none then 1 else 0) ∧
    (prepare serviceHandler r tenant db).rollbacks
        = (if (serviceHandler r (provision tenant (txBegin db))).2.2 = none then 0 else 1) := by
  cases h : (serviceHandler r (provision tenant (txBegin db))).2.2 <;>
    simp [prepare, h]

/-- Claim C8: whenever the business-logic unit returns an error, the
whole transaction is rolled back and the committed backend state after
the request equals the state before it, whatever mutations the unit
performed inside the transaction. -/
theorem prepare_rollback_restores (serviceHandler : Handler) (r : Request)
    (tenant : GoStr) (db : PGState)
    (h : (serviceHandler r (provision tenant (txBegin db))).2.2 ≠ none) :
    (prepare serviceHandler r tenant db).db = db := by
  cases h2 : (serviceHandler r (provision tenant (txBegin db))).2.2 with
  | none => exact absurd h2 h
  | some e => simp [prepare, h2]

/-- Witness for C8 at a unit that inserts a row and then fails: the
insert is not visible after the request. -/
theorem prepare_rollback_restores_witness :
    (fxMutatingFailingUnit fxReqList (provision (gs "t1") (txBegin fxDb0))).2.2 ≠ none ∧
    (fxMutatingFailingUnit fxReqList (provision (gs "t1") (txBegin fxDb0))).1.pg.rows
        = [(gs "t1", { ID := 1, Name := gs "x" })] ∧
    (prepare fxMutatingFailingUnit fxReqList (gs "t1") fxDb0).db = fxDb0 :=
  ⟨by decide, by decide,
    prepare_rollback_restores fxMutatingFailingUnit fxReqList (gs "t1") fxDb0 (by decide)⟩

/-- Claim C2 is false of the code: the hazardous tenant
`acme; drop schema public` is not rejected; both storage statements are
built from it by interpolation and issued inside the transaction. -/
theorem interpolated_tenant_statements_issued :
    isIdent fxDropTenant = false ∧
    (prepare ListPeople fxReqList fxDropTenant fxDb0).begins = 1 ∧
    (prepare ListPeople fxReqList fxDropTenant fxDb0).sql
        = [createHead ++ fxDropTenant, setPathHead ++ fxDropTenant] := by
  decide

/-- Claim C3 is false of the code: a verified token with an empty tenant
claim is not rejected; `authorize` opens a transaction, issues both
provisioning statements built from the empty tenant, and the request
completes with status 200, not 401. -/
theorem empty_tenant_not_rejected :
    (authorize fxVerifyEmptyTenant ListPeople fxReqList fxDb0).begins = 1 ∧
    (authorize fxVerifyEmptyTenant ListPeople fxReqList fxDb0).sql
        = [createSchemaSQL [], setPathSQL []] ∧
    (authorize fxVerifyEmptyTenant ListPeople fxReqList fxDb0).resp.status = 200 := by
  decide

/-- Claim C4 is false of the code: with the empty tenant every
provisioning step fails and the transaction is aborted, yet the error is
not propagated: the unit still runs, `Commit` is called, and the request
completes with a success response instead of aborting. -/
theorem provisioning_failure_not_propagated :
    (provision [] (txBegin fxDb0)).aborted = true ∧
    (prepare ListPeople fxReqList [] fxDb0).commits = 1 ∧
    (prepare ListPeople fxReqList [] fxDb0).rollbacks = 0 ∧
    (prepare ListPeople fxReqList [] fxDb0).resp
        = { status := 200, body := .people [] } := by
  decide

/-- Claim C5 is false of the code: when the unit fails (here `GetPerson`
with the unparsable id `abc`) the dispatcher only rolls back; it writes
no error status, and the client receives an implicit 200 with an empty
body. -/
theorem handler_failure_no_error_response :
    (GetPerson fxReqBadId (provision (gs "acme") (txBegin fxDb0))).2.2
        = some (.atoiErr (gs "abc")) ∧
    (prepare GetPerson fxReqBadId (gs "acme") fxDb0).rollbacks = 1 ∧
    (prepare GetPerson fxReqBadId (gs "acme") fxDb0).resp
        = { status := 200, body := .empty } := by
  decide

/-- A successful first-space split recovers the original string. -/
theorem breakSp_eq_some (h : GoStr) :
    ∀ a b : GoStr, breakSp h = some (a, b) → h = a ++ ' ' :: b := by
  induction h with
  | nil => intro a b hh; simp [breakSp] at hh
  | cons c cs ih =>
    intro a b hh
    by_cases hc : c = ' '
    · subst hc
      simp [breakSp] at hh
      obtain ⟨rfl, rfl⟩ := hh
      rfl
    · simp [breakSp, hc] at hh
      cases hcs : breakSp cs with
      | none => rw [hcs] at hh; simp at hh
      | some x =>
        obtain ⟨a2, b2⟩ := x
        rw [hcs] at hh
        simp at hh
        obtain ⟨rfl, rfl⟩ := hh
        rw [ih _ _ hcs]
        rfl

/-- Splitting at the first space of `a ++ ' ' :: b` with no space in `a`
gives back the two parts. -/
theorem breakSp_append (a b : GoStr) (ha : ∀ c ∈ a, ¬ c = ' ') :
    breakSp (a ++ ' ' :: b) = some (a, b) := by
  induction a with
  | nil => simp [breakSp]
  | cons c cs ih =>
    have hc : ¬ c = ' ' := ha c (by simp)
    have ih2 := ih (fun d hd => ha d (by simp [hd]))
    show breakSp (c :: (cs ++ ' ' :: b)) = some (c :: cs, b)
    simp only [breakSp, if_neg (show ¬((c == ' ') = true) by simp [hc]), ih2]

/-- The Bearer prefix as a list. -/
theorem gs_Bearer_space : gs "Bearer " = gs "Bearer" ++ [' '] := by decide

/-- Claim C7: the header-validity predicate accepts a value exactly when
splitting it at the first space yields the word `Bearer` and a nonempty
remainder; on every invalid header the dispatcher answers 401 without
opening a transaction, without issuing any statement, and without
consulting the token verifier. -/
theorem authorization_header_contract :
    (∀ h : GoStr, isValidAuthorizationHeader h = true ↔
        ∃ t : GoStr, t ≠ [] ∧ h = gs "Bearer " ++ t) ∧
    (∀ h : GoStr, isValidAuthorizationHeader h = false →
      ∀ (verify verify2 : GoStr → VerifyResult) (u : Handler) (r : Request) (db : PGState),
        r.authHeader = h →
          (authorize verify u r db).resp.status = 401 ∧
          (authorize verify u r db).begins = 0 ∧
          (authorize verify u r db).sql = [] ∧
          (authorize verify u r db).db = db ∧
          authorize verify u r db = authorize verify2 u r db) := by
  constructor
  · intro h
    constructor
    · intro hv
      by_cases h0 : h = []
      · simp [isValidAuthorizationHeader, h0] at hv
      · simp only [isValidAuthorizationHeader, beq_iff_eq, if_neg h0] at hv
        cases hb : breakSp h with
        | none => rw [hb] at hv; simp at hv
        | some x =>
          obtain ⟨scheme, token⟩ := x
          rw [hb] at hv
          simp at hv
          refine ⟨token, hv.2, ?_⟩
          rw [breakSp_eq_some h scheme token hb, hv.1, gs_Bearer_space, List.append_assoc]
          rfl
    · rintro ⟨t, ht, rfl⟩
      rw [gs_Bearer_space, List.append_assoc]
      have hb := breakSp_append (gs "Bearer") t (by decide)
      simp only [List.singleton_append] at hb
      simp [isValidAuthorizationHeader, hb, ht]
  · intro h hv verify verify2 u r db hr
    simp [authorize, hr, hv, err401]

/-- Witness for C7: the header `Basic abc` is rejected, `Bearer tok` is
accepted, and the request carrying the rejected header gets a 401 with
no transaction, independently of the verifier. -/
theorem authorization_header_contract_witness :
    isValidAuthorizationHeader (gs "Basic abc") = false ∧
    (authorize fxVerifyEmptyTenant ListPeople fxReqBasic fxDb0).resp.status = 401 ∧
    (authorize fxVerifyEmptyTenant ListPeople fxReqBasic fxDb0).begins = 0 ∧
    (authorize fxVerifyEmptyTenant ListPeople fxReqBasic fxDb0).sql = [] ∧
    (authorize fxVerifyEmptyTenant ListPeople fxReqBasic fxDb0).db = fxDb0 ∧
    isValidAuthorizationHeader (gs "Bearer tok") = true := by
  have h2 := authorization_header_contract.2 (gs "Basic abc") (by decide)
    fxVerifyEmptyTenant fxVerifyEmptyTenant ListPeople fxReqBasic fxDb0 (by decide)
  have h1 := (authorization_header_contract.1 (gs "Bearer tok")).mpr
    ⟨gs "tok", by decide, by decide⟩
  exact ⟨by decide, h2.1, h2.2.1, h2.2.2.1, h2.2.2.2.1, h1⟩

/-- The operation trace of `dbCreate`. -/
theorem dbCreate_ops (p : Person) (tx : TxState) :
    (dbCreate p tx).ops = tx.ops ++ [DbOp.create p] := by
  simp only [dbCreate]
  split
  · rfl
  · split <;> rfl

/-- The operation trace of `dbSave`. -/
theorem dbSave_ops (p : Person) (tx : TxState) :
    (dbSave p tx).ops = tx.ops ++ [DbOp.save p] := by
  simp only [dbSave]
  split
  · rfl
  · split
    · split
      · split <;> rfl
      · rfl
    · rfl

/-- The operation trace of `dbDelete`. -/
theorem dbDelete_ops (p : Person) (tx : TxState) :
    (dbDelete p tx).ops = tx.ops ++ [DbOp.delete p] := by
  simp only [dbDelete]
  split
  · rfl
  · split <;> rfl

/-- The operation trace of `dbFind`. -/
theorem dbFind_ops (tx : TxState) :
    ((dbFind tx).2).ops = tx.ops ++ [DbOp.findAll] := by
  simp only [dbFind]
  split
  · rfl
  · split <;> rfl

/-- Claim C10: for Create, Update and Delete, when the `{id}` path
variable parses, the id used for the data operation is the parsed path
id — the decoded body only contributes its name — and when it does not
parse, the handler performs no data operation, leaves the transaction
untouched and returns the parse error. -/
theorem path_id_overrides_body_id (r : Request) (tx : TxState)
    (h0 : tx.ops = []) :
    (goAtoi r.idVar = none →
      CreatePerson r tx = (tx, { status := 200, body := .empty }, some (.atoiErr r.idVar)) ∧
      UpdatePerson r tx = (tx, { status := 200, body := .empty }, some (.atoiErr r.idVar)) ∧
      DeletePerson r tx = (tx, { status := 200, body := .empty }, some (.atoiErr r.idVar))) ∧
    (∀ n : Int, goAtoi r.idVar = some n →
      (CreatePerson r tx).1.ops = [DbOp.create { ID := n, Name := r.bodyPerson.Name }, DbOp.findAll] ∧
      (UpdatePerson r tx).1.ops = [DbOp.save { ID := n, Name := r.bodyPerson.Name }, DbOp.findAll] ∧
      (DeletePerson r tx).1.ops = [DbOp.delete { ID := n, Name := [] }, DbOp.findAll]) := by
  constructor
  · intro h
    exact ⟨by simp [CreatePerson, h], by simp [UpdatePerson, h], by simp [DeletePerson, h]⟩
  · intro n h
    refine ⟨?_, ?_, ?_⟩
    · simp [CreatePerson, h, dbFind_ops, dbCreate_ops, h0]
    · simp [UpdatePerson, h, dbFind_ops, dbSave_ops, h0]
    · simp [DeletePerson, h, dbFind_ops, dbDelete_ops, h0]

/-- Witness for C10: on `/person/5` with a body id of 99, a fresh
transaction records the operations with id 5, and on `/person/abc` the
handlers return the parse error leaving the transaction untouched. -/
theorem path_id_overrides_body_id_witness :
    (txBegin fxDb0).ops = [] ∧
    goAtoi fxReqCreate.idVar = some 5 ∧
    ((CreatePerson fxReqCreate (txBegin fxDb0)).1.ops
        = [DbOp.create { ID := 5, Name := gs "Ada" }, DbOp.findAll] ∧
      (UpdatePerson fxReqCreate (txBegin fxDb0)).1.ops
        = [DbOp.save { ID := 5, Name := gs "Ada" }, DbOp.findAll] ∧
      (DeletePerson fxReqCreate (txBegin fxDb0)).1.ops
        = [DbOp.delete { ID := 5, Name := [] }, DbOp.findAll]) ∧
    CreatePerson fxReqBadId (txBegin fxDb0)
        = (txBegin fxDb0, { status := 200, body := .empty }, some (.atoiErr (gs "abc"))) :=
  ⟨by decide, by decide,
    ((path_id_overrides_body_id fxReqCreate (txBegin fxDb0) (by decide)).2 5 (by decide)),
    ((path_id_overrides_body_id fxReqBadId (txBegin fxDb0) (by decide)).1 (by decide)).1⟩

/-- A statement inside an aborted transaction changes nothing. -/
theorem runStmt_aborted (tx : TxState) (s : Stmt) (h : tx.aborted = true) :
    runStmt tx s = tx := by
  simp [runStmt, h]

/-- A statement list inside an aborted transaction changes nothing. -/
theorem runStmts_aborted (L : List Stmt) (tx : TxState) (h : tx.aborted = true) :
    runStmts L tx = tx := by
  induction L with
  | nil => rfl
  | cons s L ih =>
    show runStmts L (runStmt tx s) = tx
    rw [runStmt_aborted tx s h]
    exact ih

/-- Auto-migration inside an aborted transaction changes nothing. -/
theorem autoMigrate_aborted (tx : TxState) (h : tx.aborted = true) :
    autoMigrate tx = tx := by
  simp [autoMigrate, h]

/-- Running a statement list is running the two pieces in order. -/
theorem runStmts_append (L1 L2 : List Stmt) (tx : TxState) :
    runStmts (L1 ++ L2) tx = runStmts L2 (runStmts L1 tx) := by
  simp [runStmts, List.foldl_append]

/-- A failing statement list aborts a live transaction. -/
theorem runStmts_err_aborts (L : List Stmt) :
    ∀ tx : TxState, tx.aborted = false → hasErr L = true →
      (runStmts L tx).aborted = true := by
  induction L with
  | nil => intro tx h0 h1; simp [hasErr] at h1
  | cons s L ih =>
    intro tx h0 h1
    show (runStmts L (runStmt tx s)).aborted = true
    by_cases hs : s = Stmt.err
    · subst hs
      have : runStmt tx Stmt.err = { tx with aborted := true } := by simp [runStmt, h0]
      rw [this, runStmts_aborted L _ rfl]
    · have hL : hasErr L = true := by
        simp [hasErr] at h1 ⊢
        exact h1.resolve_left hs
      have hkeep : (runStmt tx s).aborted = false := by
        cases s <;> simp [runStmt, h0] <;> simp at hs
      exact ih _ hkeep hL

/-- A live transaction running an error-free statement list collects the
created schemas, moves to the last requested search path, and touches
nothing else. -/
theorem runStmts_shape (L : List Stmt) :
    ∀ tx : TxState, tx.aborted = false → hasErr L = false →
      runStmts L tx
        = { tx with
            pg := { tx.pg with schemas := tx.pg.schemas ∪ createsOf L }
            path := (lastPathOf L).getD tx.path } := by
  induction L with
  | nil =>
    intro tx h0 h1
    show tx = _
    simp [createsOf, lastPathOf]
  | cons s L ih =>
    intro tx h0 h1
    have h1' : ¬s = Stmt.err ∧ hasErr L = false := by
      simpa [hasErr, not_or] using h1
    obtain ⟨hs, hL⟩ := h1'
    show runStmts L (runStmt tx s) = _
    cases s with
    | createSchema n =>
      have e1 : runStmt tx (Stmt.createSchema n)
          = { tx with pg := { tx.pg with schemas := insert n tx.pg.schemas } } := by
        simp [runStmt, h0]
      rw [e1, ih _ (by simpa using h0) hL]
      cases hP : lastPathOf L with
      | none =>
        simp [createsOf, lastPathOf, hP, stmtPath, Finset.insert_union, Finset.union_insert]
      | some m =>
        simp [createsOf, lastPathOf, hP, Finset.insert_union, Finset.union_insert]
    | setPath n =>
      have e1 : runStmt tx (Stmt.setPath n) = { tx with path := n } := by
        simp [runStmt, h0]
      rw [e1, ih _ (by simpa using h0) hL]
      cases hP : lastPathOf L with
      | none => simp [createsOf, lastPathOf, hP, stmtPath]
      | some m => simp [createsOf, lastPathOf, hP]
    | skip =>
      have e1 : runStmt tx Stmt.skip = tx := by simp [runStmt, h0]
      rw [e1, ih _ h0 hL]
      cases hP : lastPathOf L with
      | none => simp [createsOf, lastPathOf, hP, stmtPath]
      | some m => simp [createsOf, lastPathOf, hP]
    | err => exact absurd rfl hs

/-- Claim C9: provisioning is idempotent: running the three provisioning
steps twice for the same tenant, from any transaction state, yields
exactly the same transaction state as running them once. -/
theorem provision_idem (tenant : GoStr) (tx : TxState) :
    provision tenant (provision tenant tx) = provision tenant tx := by
  have eP : ∀ u : TxState, provision tenant u
      = autoMigrate (runStmts (parseSQL (createSchemaSQL tenant)
          ++ parseSQL (setPathSQL tenant)) u) := by
    intro u
    rw [provision, dbExec, dbExec, runStmts_append]
  set L := parseSQL (createSchemaSQL tenant) ++ parseSQL (setPathSQL tenant) with hLdef
  rw [eP, eP]
  by_cases h0 : tx.aborted = true
  · rw [runStmts_aborted L tx h0, autoMigrate_aborted tx h0,
      runStmts_aborted L tx h0, autoMigrate_aborted tx h0]
  · have h0' : tx.aborted = false := by simpa using h0
    by_cases hE : hasErr L = true
    · have hy : (runStmts L tx).aborted = true := runStmts_err_aborts L tx h0' hE
      rw [autoMigrate_aborted _ hy, runStmts_aborted L _ hy, autoMigrate_aborted _ hy]
    · have hE' : hasErr L = false := by simpa using hE
      rw [runStmts_shape L tx h0' hE']
      set y : TxState := { tx with
          pg := { tx.pg with schemas := tx.pg.schemas ∪ createsOf L }
          path := (lastPathOf L).getD tx.path } with hy
      have hyab : y.aborted = false := h0'
      by_cases hm : y.path ∈ y.pg.schemas
      · have e2 : autoMigrate y = { y with pg := { y.pg with tables := insert y.path y.pg.tables } } := by
          simp [autoMigrate, hyab, h0', hm]
        rw [e2]
        have hab2 : ({ y with pg := { y.pg with tables := insert y.path y.pg.tables } } : TxState).aborted = false := hyab
        rw [runStmts_shape L _ hab2 hE']
        have hsch : y.pg.schemas ∪ createsOf L = y.pg.schemas := by
          rw [hy]
          show tx.pg.schemas ∪ createsOf L ∪ createsOf L = tx.pg.schemas ∪ createsOf L
          rw [Finset.union_assoc, Finset.union_self]
        have hpth : (lastPathOf L).getD y.path = y.path := by
          cases hP : lastPathOf L with
          | none => rfl
          | some m =>
            rw [hy]
            show m = (lastPathOf L).getD tx.path
            rw [hP]
            rfl
        rw [show ({ y with pg := { y.pg with tables := insert y.path y.pg.tables } } : TxState).pg.schemas = y.pg.schemas from rfl] at *
        simp only [hsch, hpth]
        have hm2 : y.path ∈ y.pg.schemas := hm
        simp [autoMigrate, hyab, h0', hm2, Finset.insert_idem]
      · have e2 : autoMigrate y = { y with aborted := true } := by
          simp [autoMigrate, hyab, h0', hm]
        rw [e2, runStmts_aborted L _ rfl, autoMigrate_aborted _ rfl]

/-- Counterexample to claim C1 as stated: the record `{5, Ada}` written
under tenant `t1` is observed by a request running under the distinct
tenant `public; set search_path to t1`, because the raw tenant string is
interpolated into the provisioning statements. -/
theorem tenant_isolation_claim_false :
    fxInjTenant ≠ gs "t1" ∧
    fxIsoStep1.db.rows = [(gs "t1", { ID := 5, Name := gs "Ada" })] ∧
    fxIsoStep2.resp
        = { status := 200, body := .people [{ ID := 5, Name := gs "Ada" }] } := by
  decide

/-- Identifier characters are never semicolons. -/
theorem isIdentChar_ne_semi (c : Char) (h : isIdentChar c = true) : ¬ c = ';' := by
  intro he
  subst he
  exact absurd h (by decide)

/-- A safe identifier contains no semicolon. -/
theorem isIdent_no_semi (t : GoStr) (h : isIdent t = true) : ∀ c ∈ t, ¬ c = ';' := by
  cases t with
  | nil => intro c hc; simp at hc
  | cons c0 cs =>
    simp only [isIdent, Bool.and_eq_true, List.all_eq_true] at h
    intro c hc
    rcases List.mem_cons.mp hc with h1 | h1
    · subst h1
      intro he
      subst he
      exact absurd h.1 (by decide)
    · exact isIdentChar_ne_semi c (h.2 c h1)

/-- A string without semicolons splits into itself alone. -/
theorem splitSemi_no_semi (l : GoStr) (h : ∀ c ∈ l, ¬ c = ';') : splitSemi l = [l] := by
  induction l with
  | nil => rfl
  | cons c cs ih =>
    have hc : ¬ c = ';' := h c (by simp)
    have ih2 := ih (fun d hd => h d (by simp [hd]))
    simp only [splitSemi, if_neg (show ¬((c == ';') = true) by simp [hc]), ih2]

/-- Every string starts with its own prefix. -/
theorem strStarts_append (p r : GoStr) : strStarts (p ++ r) p = true := by
  induction p with
  | nil => simp [strStarts]
  | cons c cs ih => simp [strStarts, ih]

/-- The create statement head contains no semicolon. -/
theorem createHead_no_semi : ∀ c ∈ createHead, ¬ c = ';' := by decide

/-- The search path statement head contains no semicolon. -/
theorem setPathHead_no_semi : ∀ c ∈ setPathHead, ¬ c = ';' := by decide

/-- Parsing the create statement of a safe tenant. -/
theorem parseStmt_create (t : GoStr) (h : isIdent t = true) :
    parseStmt (createHead ++ t) = Stmt.createSchema (pgFoldIdent t) := by
  have hdw : (createHead ++ t).dropWhile (fun c => c == ' ') = createHead ++ t := rfl
  have hne : ((createHead ++ t) == ([] : GoStr)) = false := rfl
  simp only [parseStmt, hdw, hne, Bool.false_eq_true, if_false,
    strStarts_append, if_true, List.drop_left, h]

/-- Parsing the search path statement of a safe tenant. -/
theorem parseStmt_setPath (t : GoStr) (h : isIdent t = true) :
    parseStmt (setPathHead ++ t) = Stmt.setPath (pgFoldIdent t) := by
  have hdw : (setPathHead ++ t).dropWhile (fun c => c == ' ') = setPathHead ++ t := rfl
  have hne : ((setPathHead ++ t) == ([] : GoStr)) = false := rfl
  have hnc : strStarts (setPathHead ++ t) createHead = false := rfl
  simp only [parseStmt, hdw, hne, hnc, Bool.false_eq_true, if_false,
    strStarts_append, if_true, List.drop_left, h]

/-- The create statement of a safe tenant parses to exactly one
schema-creation statement. -/
theorem parseSQL_create (t : GoStr) (h : isIdent t = true) :
    parseSQL (createSchemaSQL t) = [Stmt.createSchema (pgFoldIdent t)] := by
  have hs : splitSemi (createHead ++ t) = [createHead ++ t] := by
    apply splitSemi_no_semi
    intro c hc
    rcases List.mem_append.mp hc with h1 | h1
    · exact createHead_no_semi c h1
    · exact isIdent_no_semi t h c h1
  simp only [parseSQL, createSchemaSQL, hs, List.map_cons, List.map_nil, parseStmt_create t h]

/-- The search path statement of a safe tenant parses to exactly one
path-switch statement. -/
theorem parseSQL_setPath (t : GoStr) (h : isIdent t = true) :
    parseSQL (setPathSQL t) = [Stmt.setPath (pgFoldIdent t)] := by
  have hs : splitSemi (setPathHead ++ t) = [setPathHead ++ t] := by
    apply splitSemi_no_semi
    intro c hc
    rcases List.mem_append.mp hc with h1 | h1
    · exact setPathHead_no_semi c h1
    · exact isIdent_no_semi t h c h1
  simp only [parseSQL, setPathSQL, hs, List.map_cons, List.map_nil, parseStmt_setPath t h]

/-- Folding a character not on the uppercase range is the identity. -/
theorem pgFoldChar_of_not_upper (c : Char) (h : c.isUpper = false) :
    pgFoldChar c = c := by
  simp [pgFoldChar, h]

/-- The backend stores an allow-listed tenant identifier verbatim. -/
theorem pgFoldIdent_safe (t : GoStr) (h : isSafeTenant t = true) :
    pgFoldIdent t = t := by
  simp only [isSafeTenant, Bool.and_eq_true, List.all_eq_true,
    decide_eq_true_eq] at h
  obtain ⟨⟨hid, hlow⟩, hlen⟩ := h
  have hmap : t.map pgFoldChar = t := by
    have hpt : ∀ c ∈ t, pgFoldChar c = id c := by
      intro c hc
      exact pgFoldChar_of_not_upper c (by simpa using hlow c hc)
    rw [List.map_congr_left hpt, List.map_id]
  rw [pgFoldIdent, hmap, List.take_of_length_le hlen]

/-- An allow-listed tenant is in particular a bare identifier. -/
theorem isSafeTenant_isIdent (t : GoStr) (h : isSafeTenant t = true) :
    isIdent t = true := by
  simp only [isSafeTenant, Bool.and_eq_true] at h
  exact h.1.1

/-- Provisioning an allow-listed tenant on a live transaction creates
exactly the tenant schema and table and scopes the search path to it. -/
theorem provision_safe (t : GoStr) (h : isSafeTenant t = true) (tx : TxState)
    (h0 : tx.aborted = false) :
    provision t tx
      = { tx with
          pg := { tx.pg with schemas := insert t tx.pg.schemas, tables := insert t tx.pg.tables }
          path := t } := by
  have hid := isSafeTenant_isIdent t h
  rw [provision, dbExec, dbExec, parseSQL_create t hid, parseSQL_setPath t hid,
    pgFoldIdent_safe t h]
  have e1 : runStmts [Stmt.createSchema t] tx
      = { tx with pg := { tx.pg with schemas := insert t tx.pg.schemas } } := by
    show runStmt tx (Stmt.createSchema t) = _
    simp [runStmt, h0]
  rw [e1]
  have e2 : runStmts [Stmt.setPath t]
      ({ tx with pg := { tx.pg with schemas := insert t tx.pg.schemas } } : TxState)
      = { tx with
          pg := { tx.pg with schemas := insert t tx.pg.schemas }
          path := t } := by
    show runStmt _ (Stmt.setPath t) = _
    simp [runStmt, h0]
  rw [e2]
  simp [autoMigrate, h0, Finset.mem_insert_self]

/-- Rows of a schema, head case. -/
theorem rowsOf_cons (s k : GoStr) (x : Person) (l : List (GoStr × Person)) :
    rowsOf s ((k, x) :: l) = if k = s then x :: rowsOf s l else rowsOf s l := by
  by_cases hk : k = s <;> simp [rowsOf, List.filter_cons, hk]

/-- Rows of a schema distribute over append. -/
theorem rowsOf_append (s : GoStr) (l1 l2 : List (GoStr × Person)) :
    rowsOf s (l1 ++ l2) = rowsOf s l1 ++ rowsOf s l2 := by
  simp [rowsOf, List.filter_append]

/-- Rows of a schema, singleton case. -/
theorem rowsOf_single (s k : GoStr) (x : Person) :
    rowsOf s [(k, x)] = if k = s then [x] else [] := by
  by_cases hk : k = s <;> simp [rowsOf, hk]

/-- An update keyed to schema `t` does not change the rows of another
schema. -/
theorem rowsOf_save_ne (s t : GoStr) (n : Int) (q : Person)
    (l : List (GoStr × Person)) (hst : ¬ s = t) :
    rowsOf s (l.map (fun r => if r.1 == t && r.2.ID == n then (r.1, q) else r))
      = rowsOf s l := by
  induction l with
  | nil => rfl
  | cons r l ih =>
    obtain ⟨k, x⟩ := r
    rw [List.map_cons]
    by_cases hc : ((k, x).1 == t && (k, x).2.ID == n) = true
    · have hk : k = t ∧ x.ID = n := by simpa using hc
      have hks : ¬ k = s := by
        rw [hk.1]
        intro he
        exact hst he.symm
      rw [if_pos hc]
      rw [rowsOf_cons, rowsOf_cons, if_neg hks, if_neg hks, ih]
    · rw [if_neg hc]
      by_cases hks : k = s
      · rw [rowsOf_cons, rowsOf_cons, if_pos hks, if_pos hks, ih]
      · rw [rowsOf_cons, rowsOf_cons, if_neg hks, if_neg hks, ih]

/-- An update keyed to schema `t` acts on the rows of `t` as the
corresponding row-level update. -/
theorem rowsOf_save_eq (t : GoStr) (n : Int) (q : Person)
    (l : List (GoStr × Person)) :
    rowsOf t (l.map (fun r => if r.1 == t && r.2.ID == n then (r.1, q) else r))
      = (rowsOf t l).map (fun x => if x.ID == n then q else x) := by
  induction l with
  | nil => rfl
  | cons r l ih =>
    obtain ⟨k, x⟩ := r
    rw [List.map_cons]
    by_cases hk : k = t
    · subst hk
      by_cases hn : (x.ID == n) = true
      · rw [show (if (k, x).1 == k && (k, x).2.ID == n then ((k, x).1, q) else (k, x))
            = (k, q) from by simp [hn]]
        rw [rowsOf_cons, rowsOf_cons, if_pos rfl, if_pos rfl, List.map_cons, ih,
          if_pos hn]
      · rw [show (if (k, x).1 == k && (k, x).2.ID == n then ((k, x).1, q) else (k, x))
            = (k, x) from by simp [hn]]
        rw [rowsOf_cons, rowsOf_cons, if_pos rfl, if_pos rfl, List.map_cons, ih,
          if_neg hn]
    · rw [show (if (k, x).1 == t && (k, x).2.ID == n then ((k, x).1, q) else (k, x))
          = (k, x) from by simp [hk]]
      rw [rowsOf_cons, rowsOf_cons, if_neg hk, if_neg hk, ih]

/-- A delete keyed to schema `t` does not change the rows of another
schema. -/
theorem rowsOf_del_ne (s t : GoStr) (n : Int)
    (l : List (GoStr × Person)) (hst : ¬ s = t) :
    rowsOf s (l.filter (fun r => !(r.1 == t && r.2.ID == n))) = rowsOf s l := by
  induction l with
  | nil => rfl
  | cons r l ih =>
    obtain ⟨k, x⟩ := r
    rw [List.filter_cons]
    by_cases hc : (!((k, x).1 == t && (k, x).2.ID == n)) = true
    · rw [if_pos hc, rowsOf_cons, rowsOf_cons, ih]
    · have hk : k = t ∧ x.ID = n := by
        have := Bool.not_eq_true _ ▸ hc
        simpa using hc
      have hks : ¬ k = s := by
        rw [hk.1]
        intro he
        exact hst he.symm
      rw [if_neg hc, rowsOf_cons, if_neg hks, ih]

/-- A delete keyed to schema `t` acts on the rows of `t` as the
corresponding row-level filter. -/
theorem rowsOf_del_eq (t : GoStr) (n : Int) (l : List (GoStr × Person)) :
    rowsOf t (l.filter (fun r => !(r.1 == t && r.2.ID == n)))
      = (rowsOf t l).filter (fun x => !(x.ID == n)) := by
  induction l with
  | nil => rfl
  | cons r l ih =>
    obtain ⟨k, x⟩ := r
    rw [List.filter_cons]
    by_cases hk : k = t
    · subst hk
      by_cases hn : (x.ID == n) = true
      · have hc : (!((k, x).1 == k && (k, x).2.ID == n)) = false := by simp [hn]
        rw [hc]
        simp only [Bool.false_eq_true, if_false]
        rw [ih, rowsOf_cons, if_pos rfl, List.filter_cons]
        simp [hn]
      · have hc : (!((k, x).1 == k && (k, x).2.ID == n)) = true := by simp [hn]
        rw [if_pos hc, rowsOf_cons, rowsOf_cons, if_pos rfl, if_pos rfl, ih,
          List.filter_cons]
        simp [hn]
    · have hc : (!((k, x).1 == t && (k, x).2.ID == n)) = true := by simp [hk]
      rw [if_pos hc, rowsOf_cons, rowsOf_cons, if_neg hk, if_neg hk, ih]

/-- Propositional-condition form of `rowsOf_save_eq`, matching the
normal form produced by `simp`. -/
theorem rowsOf_save_eq2 (t : GoStr) (n : Int) (q : Person)
    (l : List (GoStr × Person)) :
    rowsOf t (l.map (fun r => if r.1 = t ∧ r.2.ID = n then (r.1, q) else r))
      = (rowsOf t l).map (fun x => if x.ID = n then q else x) := by
  induction l with
  | nil => rfl
  | cons r l ih =>
    obtain ⟨k, x⟩ := r
    rw [List.map_cons]
    by_cases hk : k = t
    · subst hk
      by_cases hn : x.ID = n
      · rw [show (if (k, x).1 = k ∧ (k, x).2.ID = n then ((k, x).1, q) else (k, x))
            = (k, q) from by simp [hn]]
        rw [rowsOf_cons, rowsOf_cons, if_pos rfl, if_pos rfl, List.map_cons, ih,
          if_pos hn]
      · rw [show (if (k, x).1 = k ∧ (k, x).2.ID = n then ((k, x).1, q) else (k, x))
            = (k, x) from by simp [hn]]
        rw [rowsOf_cons, rowsOf_cons, if_pos rfl, if_pos rfl, List.map_cons, ih,
          if_neg hn]
    · rw [show (if (k, x).1 = t ∧ (k, x).2.ID = n then ((k, x).1, q) else (k, x))
          = (k, x) from by simp [hk]]
      rw [rowsOf_cons, rowsOf_cons, if_neg hk, if_neg hk, ih]

/-- Disjunctive-condition form of `rowsOf_del_eq`, matching the normal
form produced by `simp`. -/
theorem rowsOf_del_eq2 (t : GoStr) (n : Int) (l : List (GoStr × Person)) :
    rowsOf t (l.filter (fun r => !(r.1 == t) || !(r.2.ID == n)))
      = (rowsOf t l).filter (fun x => !(x.ID == n)) := by
  induction l with
  | nil => rfl
  | cons r l ih =>
    obtain ⟨k, x⟩ := r
    rw [List.filter_cons]
    by_cases hk : k = t
    · subst hk
      by_cases hn : (x.ID == n) = true
      · have hc : (!((k, x).1 == k) || !((k, x).2.ID == n)) = false := by simp [hn]
        rw [hc]
        simp only [Bool.false_eq_true, if_false]
        rw [ih, rowsOf_cons, if_pos rfl, List.filter_cons]
        simp [hn]
      · have hc : (!((k, x).1 == k) || !((k, x).2.ID == n)) = true := by simp [hn]
        rw [if_pos hc, rowsOf_cons, rowsOf_cons, if_pos rfl, if_pos rfl, ih,
          List.filter_cons]
        simp [hn]
    · have hc : (!((k, x).1 == t) || !((k, x).2.ID == n)) = true := by simp [hk]
      rw [if_pos hc, rowsOf_cons, rowsOf_cons, if_neg hk, if_neg hk, ih]

/-- Unfolded form of transaction agreement on tenant `t`. -/
theorem txRel_iff (t : GoStr) (tx tx' : TxState) :
    txRel t tx tx' ↔ (tx.path = t ∧ tx'.path = t ∧ tx.aborted = tx'.aborted ∧
      (t ∈ tx.pg.schemas ↔ t ∈ tx'.pg.schemas) ∧
      (t ∈ tx.pg.tables ↔ t ∈ tx'.pg.tables) ∧
      rowsOf t tx.pg.rows = rowsOf t tx'.pg.rows) := by
  unfold txRel sliceOf
  rw [Prod.ext_iff, Prod.ext_iff]
  simp [decide_eq_decide, and_assoc]

/-- Operation `dbFind` returns equal results on agreeing transactions and
preserves the agreement. -/
theorem dbFind_rel (t : GoStr) (tx tx' : TxState) (h : txRel t tx tx') :
    (dbFind tx).1 = (dbFind tx').1 ∧ txRel t (dbFind tx).2 (dbFind tx').2 := by
  rw [txRel_iff] at h
  obtain ⟨hp, hp', hab, hsch, htbl, hrows⟩ := h
  rw [txRel_iff]
  cases hA : tx.aborted with
  | true =>
    have hA' : tx'.aborted = true := by rw [← hab]; exact hA
    simp [dbFind, hA, hA', hp, hp', hsch, htbl, hrows]
  | false =>
    have hA' : tx'.aborted = false := by rw [← hab]; exact hA
    by_cases hT : t ∈ tx.pg.tables
    · have hT' : t ∈ tx'.pg.tables := htbl.mp hT
      simp [dbFind, hA, hA', hp, hp', hT, hT', hsch, htbl, hrows]
    · have hT' : ¬ t ∈ tx'.pg.tables := fun hx => hT (htbl.mpr hx)
      simp [dbFind, hA, hA', hp, hp', hT, hT', hsch, htbl, hrows]

/-- Operation `dbWhereFind` returns equal results on agreeing transactions and
preserves the agreement. -/
theorem dbWhereFind_rel (t : GoStr) (n : Int) (tx tx' : TxState) (h : txRel t tx tx') :
    (dbWhereFind n tx).1 = (dbWhereFind n tx').1 ∧
    txRel t (dbWhereFind n tx).2 (dbWhereFind n tx').2 := by
  rw [txRel_iff] at h
  obtain ⟨hp, hp', hab, hsch, htbl, hrows⟩ := h
  rw [txRel_iff]
  cases hA : tx.aborted with
  | true =>
    have hA' : tx'.aborted = true := by rw [← hab]; exact hA
    simp [dbWhereFind, hA, hA', hp, hp', hsch, htbl, hrows]
  | false =>
    have hA' : tx'.aborted = false := by rw [← hab]; exact hA
    by_cases hT : t ∈ tx.pg.tables
    · have hT' : t ∈ tx'.pg.tables := htbl.mp hT
      simp [dbWhereFind, hA, hA', hp, hp', hT, hT', hsch, htbl, hrows]
    · have hT' : ¬ t ∈ tx'.pg.tables := fun hx => hT (htbl.mpr hx)
      simp [dbWhereFind, hA, hA', hp, hp', hT, hT', hsch, htbl, hrows]

/-- Operation `dbCreate` preserves agreement on tenant `t`. -/
theorem dbCreate_rel (t : GoStr) (q : Person) (tx tx' : TxState) (h : txRel t tx tx') :
    txRel t (dbCreate q tx) (dbCreate q tx') := by
  rw [txRel_iff] at h
  obtain ⟨hp, hp', hab, hsch, htbl, hrows⟩ := h
  rw [txRel_iff]
  cases hA : tx.aborted with
  | true =>
    have hA' : tx'.aborted = true := by rw [← hab]; exact hA
    simp [dbCreate, hA, hA', hp, hp', hsch, htbl, hrows]
  | false =>
    have hA' : tx'.aborted = false := by rw [← hab]; exact hA
    by_cases hT : t ∈ tx.pg.tables
    · have hT' : t ∈ tx'.pg.tables := htbl.mp hT
      simp [dbCreate, hA, hA', hp, hp', hT, hT', hsch, htbl, hrows,
        rowsOf_append, rowsOf_single]
      split <;> simp [rowsOf_append, rowsOf_single, hsch, htbl, hrows]
    · have hT' : ¬ t ∈ tx'.pg.tables := fun hx => hT (htbl.mpr hx)
      simp [dbCreate, hA, hA', hp, hp', hT, hT', hsch, htbl, hrows]

/-- Operation `dbSave` preserves agreement on tenant `t`. -/
theorem dbSave_rel (t : GoStr) (q : Person) (tx tx' : TxState) (h : txRel t tx tx') :
    txRel t (dbSave q tx) (dbSave q tx') := by
  rw [txRel_iff] at h
  obtain ⟨hp, hp', hab, hsch, htbl, hrows⟩ := h
  rw [txRel_iff]
  cases hA : tx.aborted with
  | true =>
    have hA' : tx'.aborted = true := by rw [← hab]; exact hA
    simp [dbSave, hA, hA', hp, hp', hsch, htbl, hrows]
  | false =>
    have hA' : tx'.aborted = false := by rw [← hab]; exact hA
    by_cases hT : t ∈ tx.pg.tables
    · have hT' : t ∈ tx'.pg.tables := htbl.mp hT
      by_cases hz : (q.ID == 0) = true
      · simp [dbSave, hA, hA', hp, hp', hT, hT', hz, hsch, htbl, hrows,
          rowsOf_append, rowsOf_single]
        split <;> simp [rowsOf_append, rowsOf_single, hsch, htbl, hrows]
      · simp [dbSave, hA, hA', hp, hp', hT, hT', hz, hsch, htbl, hrows,
          rowsOf_save_eq2]
    · have hT' : ¬ t ∈ tx'.pg.tables := fun hx => hT (htbl.mpr hx)
      simp [dbSave, hA, hA', hp, hp', hT, hT', hsch, htbl, hrows]

/-- Operation `dbDelete` preserves agreement on tenant `t`. -/
theorem dbDelete_rel (t : GoStr) (q : Person) (tx tx' : TxState) (h : txRel t tx tx') :
    txRel t (dbDelete q tx) (dbDelete q tx') := by
  rw [txRel_iff] at h
  obtain ⟨hp, hp', hab, hsch, htbl, hrows⟩ := h
  rw [txRel_iff]
  cases hA : tx.aborted with
  | true =>
    have hA' : tx'.aborted = true := by rw [← hab]; exact hA
    simp [dbDelete, hA, hA', hp, hp', hsch, htbl, hrows]
  | false =>
    have hA' : tx'.aborted = false := by rw [← hab]; exact hA
    by_cases hT : t ∈ tx.pg.tables
    · have hT' : t ∈ tx'.pg.tables := htbl.mp hT
      simp [dbDelete, hA, hA', hp, hp', hT, hT', hsch, htbl, hrows, rowsOf_del_eq2]
    · have hT' : ¬ t ∈ tx'.pg.tables := fun hx => hT (htbl.mpr hx)
      simp [dbDelete, hA, hA', hp, hp', hT, hT', hsch, htbl, hrows]

/-- Operation `dbFind` changes neither the view nor the search path. -/
theorem dbFind_frame (tx : TxState) :
    (dbFind tx).2.pg = tx.pg ∧ (dbFind tx).2.path = tx.path := by
  simp only [dbFind]
  split
  · exact ⟨rfl, rfl⟩
  · split
    · exact ⟨rfl, rfl⟩
    · exact ⟨rfl, rfl⟩

/-- Operation `dbWhereFind` changes neither the view nor the search path. -/
theorem dbWhereFind_frame (n : Int) (tx : TxState) :
    (dbWhereFind n tx).2.pg = tx.pg ∧ (dbWhereFind n tx).2.path = tx.path := by
  simp only [dbWhereFind]
  split
  · exact ⟨rfl, rfl⟩
  · split
    · exact ⟨rfl, rfl⟩
    · exact ⟨rfl, rfl⟩

/-- Operation `dbCreate` keeps the path, the schemas, the tables, and the rows of
every other schema. -/
theorem dbCreate_frame (q : Person) (tx : TxState) :
    (dbCreate q tx).path = tx.path ∧
    (dbCreate q tx).pg.schemas = tx.pg.schemas ∧
    (dbCreate q tx).pg.tables = tx.pg.tables ∧
    ∀ s, ¬ s = tx.path → rowsOf s (dbCreate q tx).pg.rows = rowsOf s tx.pg.rows := by
  simp only [dbCreate]
  split
  · exact ⟨rfl, rfl, rfl, fun s hs => rfl⟩
  · split
    · refine ⟨rfl, rfl, rfl, fun s hs => ?_⟩
      rw [rowsOf_append, rowsOf_single, if_neg (fun he => hs he.symm)]
      simp
    · exact ⟨rfl, rfl, rfl, fun s hs => rfl⟩

/-- Operation `dbSave` keeps the path, the schemas, the tables, and the rows of
every other schema. -/
theorem dbSave_frame (q : Person) (tx : TxState) :
    (dbSave q tx).path = tx.path ∧
    (dbSave q tx).pg.schemas = tx.pg.schemas ∧
    (dbSave q tx).pg.tables = tx.pg.tables ∧
    ∀ s, ¬ s = tx.path → rowsOf s (dbSave q tx).pg.rows = rowsOf s tx.pg.rows := by
  simp only [dbSave]
  split
  · exact ⟨rfl, rfl, rfl, fun s hs => rfl⟩
  · split
    · split
      · split
        · exact ⟨rfl, rfl, rfl, fun s hs => rfl⟩
        · refine ⟨rfl, rfl, rfl, fun s hs => ?_⟩
          rw [rowsOf_append, rowsOf_single, if_neg (fun he => hs he.symm)]
          simp
      · refine ⟨rfl, rfl, rfl, fun s hs => ?_⟩
        exact rowsOf_save_ne s tx.path q.ID q tx.pg.rows hs
    · exact ⟨rfl, rfl, rfl, fun s hs => rfl⟩

/-- Operation `dbDelete` keeps the path, the schemas, the tables, and the rows of
every other schema. -/
theorem dbDelete_frame (q : Person) (tx : TxState) :
    (dbDelete q tx).path = tx.path ∧
    (dbDelete q tx).pg.schemas = tx.pg.schemas ∧
    (dbDelete q tx).pg.tables = tx.pg.tables ∧
    ∀ s, ¬ s = tx.path → rowsOf s (dbDelete q tx).pg.rows = rowsOf s tx.pg.rows := by
  simp only [dbDelete]
  split
  · exact ⟨rfl, rfl, rfl, fun s hs => rfl⟩
  · split
    · refine ⟨rfl, rfl, rfl, fun s hs => ?_⟩
      exact rowsOf_del_ne s tx.path q.ID tx.pg.rows hs
    · exact ⟨rfl, rfl, rfl, fun s hs => rfl⟩

/-- On transactions agreeing on tenant `t`, every registered unit
writes the same response and returns the same error. -/
theorem unitOf_resp_rel (u : Unit5) (t : GoStr) (r : Request) (tx tx' : TxState)
    (h : txRel t tx tx') :
    ((unitOf u) r tx).2 = ((unitOf u) r tx').2 := by
  cases u with
  | list =>
    have hf := dbFind_rel t tx tx' h
    simp [unitOf, ListPeople, hf.1]
  | get =>
    cases hA : goAtoi r.idVar with
    | none => simp [unitOf, GetPerson, hA]
    | some n =>
      have hf := dbWhereFind_rel t n tx tx' h
      simp [unitOf, GetPerson, hA, hf.1]
  | create =>
    cases hA : goAtoi r.idVar with
    | none => simp [unitOf, CreatePerson, hA]
    | some n =>
      have hc := dbCreate_rel t { r.bodyPerson with ID := n } tx tx' h
      have hf := dbFind_rel t _ _ hc
      simp [unitOf, CreatePerson, hA, hf.1]
  | update =>
    cases hA : goAtoi r.idVar with
    | none => simp [unitOf, UpdatePerson, hA]
    | some n =>
      have hc := dbSave_rel t { r.bodyPerson with ID := n } tx tx' h
      have hf := dbFind_rel t _ _ hc
      simp [unitOf, UpdatePerson, hA, hf.1]
  | delete =>
    cases hA : goAtoi r.idVar with
    | none => simp [unitOf, DeletePerson, hA]
    | some n =>
      have hc := dbDelete_rel t { ID := n, Name := [] } tx tx' h
      have hf := dbFind_rel t _ _ hc
      simp [unitOf, DeletePerson, hA, hf.1]

/-- Every registered unit keeps the search path, the set of schemas, the
set of tables, and the rows of every schema other than the scoped one. -/
theorem unitOf_frame (u : Unit5) (r : Request) (tx : TxState) :
    ((unitOf u) r tx).1.path = tx.path ∧
    ((unitOf u) r tx).1.pg.schemas = tx.pg.schemas ∧
    ((unitOf u) r tx).1.pg.tables = tx.pg.tables ∧
    ∀ s, ¬ s = tx.path → rowsOf s ((unitOf u) r tx).1.pg.rows = rowsOf s tx.pg.rows := by
  cases u with
  | list =>
    have hf := dbFind_frame tx
    simp [unitOf, ListPeople, hf.1, hf.2]
  | get =>
    cases hA : goAtoi r.idVar with
    | none => simp [unitOf, GetPerson, hA]
    | some n =>
      have hf := dbWhereFind_frame n tx
      simp [unitOf, GetPerson, hA, hf.1, hf.2]
  | create =>
    cases hA : goAtoi r.idVar with
    | none => simp [unitOf, CreatePerson, hA]
    | some n =>
      have hc := dbCreate_frame { r.bodyPerson with ID := n } tx
      have hf := dbFind_frame (dbCreate { r.bodyPerson with ID := n } tx)
      refine ⟨?_, ?_, ?_, ?_⟩
      · simp [unitOf, CreatePerson, hA, hf.2, hc.1]
      · simp [unitOf, CreatePerson, hA, hf.1, hc.2.1]
      · simp [unitOf, CreatePerson, hA, hf.1, hc.2.2.1]
      · intro s hs
        simp only [unitOf, CreatePerson, hA]
        rw [hf.1, hc.2.2.2 s hs]
  | update =>
    cases hA : goAtoi r.idVar with
    | none => simp [unitOf, UpdatePerson, hA]
    | some n =>
      have hc := dbSave_frame { r.bodyPerson with ID := n } tx
      have hf := dbFind_frame (dbSave { r.bodyPerson with ID := n } tx)
      refine ⟨?_, ?_, ?_, ?_⟩
      · simp [unitOf, UpdatePerson, hA, hf.2, hc.1]
      · simp [unitOf, UpdatePerson, hA, hf.1, hc.2.1]
      · simp [unitOf, UpdatePerson, hA, hf.1, hc.2.2.1]
      · intro s hs
        simp only [unitOf, UpdatePerson, hA]
        rw [hf.1, hc.2.2.2 s hs]
  | delete =>
    cases hA : goAtoi r.idVar with
    | none => simp [unitOf, DeletePerson, hA]
    | some n =>
      have hc := dbDelete_frame { ID := n, Name := [] } tx
      have hf := dbFind_frame (dbDelete { ID := n, Name := [] } tx)
      refine ⟨?_, ?_, ?_, ?_⟩
      · simp [unitOf, DeletePerson, hA, hf.2, hc.1]
      · simp [unitOf, DeletePerson, hA, hf.1, hc.2.1]
      · simp [unitOf, DeletePerson, hA, hf.1, hc.2.2.1]
      · intro s hs
        simp only [unitOf, DeletePerson, hA]
        rw [hf.1, hc.2.2.2 s hs]

/-- A request dispatched for a safe tenant `t` leaves the schema, the
table, and the rows of every other tenant untouched. -/
theorem prepare_safe_frame (t : GoStr) (hsafe : isSafeTenant t = true) (u : Unit5)
    (r : Request) (db : PGState) (s : GoStr) (hst : ¬ s = t) :
    ((s ∈ (prepare (unitOf u) r t db).db.schemas) ↔ s ∈ db.schemas) ∧
    ((s ∈ (prepare (unitOf u) r t db).db.tables) ↔ s ∈ db.tables) ∧
    rowsOf s (prepare (unitOf u) r t db).db.rows = rowsOf s db.rows := by
  have eprov := provision_safe t hsafe (txBegin db) rfl
  have huf := unitOf_frame u r (provision t (txBegin db))
  cases hE : ((unitOf u) r (provision t (txBegin db))).2.2 with
  | some e => simp [prepare, hE]
  | none =>
    cases hAb : ((unitOf u) r (provision t (txBegin db))).1.aborted with
    | true => simp [prepare, hE, hAb]
    | false =>
      have hTpath : (provision t (txBegin db)).path = t := by rw [eprov]
      have hTsch : (provision t (txBegin db)).pg.schemas = insert t db.schemas := by
        rw [eprov]
        rfl
      have hTtbl : (provision t (txBegin db)).pg.tables = insert t db.tables := by
        rw [eprov]
        rfl
      have hTrows : (provision t (txBegin db)).pg.rows = db.rows := by
        rw [eprov]
        rfl
      have hdb : (prepare (unitOf u) r t db).db
          = ((unitOf u) r (provision t (txBegin db))).1.pg := by
        simp [prepare, hE, hAb]
      rw [hdb]
      refine ⟨?_, ?_, ?_⟩
      · rw [huf.2.1, hTsch]
        simp [Finset.mem_insert, hst]
      · rw [huf.2.2.1, hTtbl]
        simp [Finset.mem_insert, hst]
      · rw [huf.2.2.2 s (by rw [hTpath]; exact hst), hTrows]

/-- Requests for a safe tenant read only that tenant, so two backends
agreeing on the tenant slice produce the same response. -/
theorem prepare_resp_eq (t : GoStr) (hsafe : isSafeTenant t = true) (u : Unit5)
    (r : Request) (db db' : PGState)
    (hr : rowsOf t db.rows = rowsOf t db'.rows) :
    (prepare (unitOf u) r t db).resp = (prepare (unitOf u) r t db').resp := by
  have e1 := provision_safe t hsafe (txBegin db) rfl
  have e2 := provision_safe t hsafe (txBegin db') rfl
  have hrel : txRel t (provision t (txBegin db)) (provision t (txBegin db')) := by
    rw [txRel_iff, e1, e2]
    refine ⟨rfl, rfl, rfl, ?_, ?_, ?_⟩
    · simp
    · simp
    · exact hr
  have hu := unitOf_resp_rel u t r _ _ hrel
  have hresp : ((unitOf u) r (provision t (txBegin db))).2.1
      = ((unitOf u) r (provision t (txBegin db'))).2.1 := by rw [hu]
  have herr : ((unitOf u) r (provision t (txBegin db))).2.2
      = ((unitOf u) r (provision t (txBegin db'))).2.2 := by rw [hu]
  cases hE : ((unitOf u) r (provision t (txBegin db))).2.2 with
  | none =>
    have hE' : ((unitOf u) r (provision t (txBegin db'))).2.2 = none := by
      rw [← herr]; exact hE
    simp [prepare, hE, hE', hresp]
  | some e =>
    have hE' : ((unitOf u) r (provision t (txBegin db'))).2.2 = some e := by
      rw [← herr]; exact hE
    simp [prepare, hE, hE', hresp]

/-- Claim C1 (amended): tenant isolation restricted to tenant
identifiers on the strict allow-list: bare identifiers that are already
lowercase and within the 63-byte name limit, which the backend lexer
stores verbatim.  For distinct allow-listed tenants, a request under
tenant one writes nothing into the partition of tenant two, and what a
registered unit observes — its full response — under tenant two is
unchanged by any prior request under tenant one.  Mixed-case or
overlong identifiers are excluded because the backend folds unquoted
identifiers to lowercase and truncates them to 63 bytes, collapsing
distinct spellings onto one schema. -/
theorem tenant_isolation_safe (t1 t2 : GoStr)
    (h1 : isSafeTenant t1 = true) (h2 : isSafeTenant t2 = true) (hne : ¬ t2 = t1)
    (u1 u2 : Unit5) (r1 r2 : Request) (db : PGState) :
    rowsOf t2 (prepare (unitOf u1) r1 t1 db).db.rows = rowsOf t2 db.rows ∧
    (prepare (unitOf u2) r2 t2 (prepare (unitOf u1) r1 t1 db).db).resp
      = (prepare (unitOf u2) r2 t2 db).resp := by
  have hf := prepare_safe_frame t1 h1 u1 r1 db t2 hne
  exact ⟨hf.2.2, prepare_resp_eq t2 h2 u2 r2 _ db hf.2.2⟩

/-- Witness for amended C1: creating person 5 under tenant `acme` puts
nothing into the `globex` partition, and a later listing under `globex`
answers exactly as if the `acme` request had never happened. -/
theorem tenant_isolation_safe_witness :
    isSafeTenant (gs "acme") = true ∧ isSafeTenant (gs "globex") = true ∧
    ¬ gs "globex" = gs "acme" ∧
    (rowsOf (gs "globex") (prepare (unitOf .create) fxReqCreate (gs "acme") fxDb0).db.rows
        = rowsOf (gs "globex") fxDb0.rows ∧
      (prepare (unitOf .list) fxReqList (gs "globex")
          (prepare (unitOf .create) fxReqCreate (gs "acme") fxDb0).db).resp
        = (prepare (unitOf .list) fxReqList (gs "globex") fxDb0).resp) :=
  ⟨by decide, by decide, by decide,
    tenant_isolation_safe (gs "acme") (gs "globex") (by decide) (by decide) (by decide)
      .create .list fxReqCreate fxReqList fxDb0⟩

end RestService
